import Mathlib

/-!
Verification of the "Intake Predictor" web service (`src/app.py`).

The service exposes `POST /predict_box_score` and `GET /health`.  The core
function `predict_box_intake` renders a prompt from three text inputs, calls
an external chat-completion service 5 times, parses each reply as a float
(with a `\d+\.\d+` first-match regex fallback), validates non-negativity,
and returns the arithmetic mean.

Modelling choices:
* Python `float` values are modelled as exact rationals `ℚ`; the spec only
  demands equality "within floating-point tolerance", and all arithmetic here
  (sum of 5 values, division by 5, decimal-literal values) is exact in `ℚ`.
* The external completion service is a black box: it is passed in as an
  oracle `llm : String → ℕ → String` giving the response text of the i-th
  call for a given prompt.  Transport-level failures are out of scope (the
  spec treats the service as an opaque collaborator); an exception from the
  client library would propagate exactly like a parse failure.
* Flask/JSON plumbing is modelled by an explicit optional request body and a
  small JSON value type for response bodies.
-/

namespace WBApp

/-- ASCII whitespace characters recognised by Python's `str.strip()` and by
`float()` (space, tab, newline, carriage return, vertical tab, form feed). -/
def pyIsSpace (c : Char) : Bool :=
  c = ' ' || c = '\t' || c = '\n' || c = '\x0d' || c = '\x0b' || c = '\x0c'

/-- `str.strip()` on a character list: drop whitespace from both ends. -/
def stripChars (l : List Char) : List Char :=
  ((l.dropWhile pyIsSpace).reverse.dropWhile pyIsSpace).reverse

/-- Python's `s.strip()` (no-argument form, ASCII whitespace). -/
def pyStrip (s : String) : String :=
  ⟨stripChars s.data⟩

/-- Numeric value of a digit string, e.g. `['1','2','3'] ↦ 123`. -/
def digitsToNat (l : List Char) : ℕ :=
  l.foldl (fun n c => 10 * n + (c.toNat - 48)) 0

/-- Embedding of `re.search(r'\d+\.\d+', s)` (line 73 of `app.py`).

`run` is the reversed maximal digit run immediately preceding the current
position (empty at the start and after any non-digit).  A match of
`\d+\.\d+` corresponds to a dot with a digit on each side; `re.search`
returns the leftmost match, whose integer part is the maximal digit run
ending just before that dot and whose fractional part is the maximal digit
run starting just after it.  The scanner returns those two digit runs. -/
def scanAux : List Char → List Char → Option (List Char × List Char)
  | _, [] => none
  | run, c :: rest =>
    if c.isDigit then
      scanAux (c :: run) rest
    else if c = '.' then
      match run, rest.takeWhile Char.isDigit with
      | i :: is, d :: ds => some ((i :: is).reverse, d :: ds)
      | [], _ => scanAux [] rest
      | _ :: _, [] => scanAux [] rest
    else
      scanAux [] rest

/-- First match of `re.search(r'\d+\.\d+', s)` as (integer digits, fraction
digits), or `none` when the pattern does not occur in `s`. -/
def firstDecimal (s : String) : Option (List Char × List Char) :=
  scanAux [] s.data

/-- Exact rational value of a matched decimal string `d+.d+`. -/
def decValue (m : List Char × List Char) : ℚ :=
  (digitsToNat m.1 : ℚ) + (digitsToNat m.2 : ℚ) / (10 : ℚ) ^ m.2.length

/-- Exponent suffix of a Python float literal: either nothing, or
`[eE][+-]?digits` reaching the end of the string. -/
def parseExp : List Char → Option ℤ
  | [] => some 0
  | c :: r =>
    if c = 'e' || c = 'E' then
      let sr : ℤ × List Char :=
        match r with
        | '+' :: t => (1, t)
        | '-' :: t => (-1, t)
        | t => (1, t)
      let ds := sr.2.takeWhile Char.isDigit
      if ds.isEmpty then none
      else if (sr.2.dropWhile Char.isDigit).isEmpty then
        some (sr.1 * (digitsToNat ds : ℤ))
      else none
    else none

/-- Models Python's builtin `float()` applied to a string (line 75/77 of
`app.py`): optional surrounding whitespace, an optional sign, then a decimal
literal `digits`, `digits.`, `digits.digits` or `.digits`, then an optional
exponent part.  Returns `none` exactly when `float()` raises `ValueError`.
The special spellings `inf`/`infinity`/`nan` and digit-group underscores are
accepted by CPython but not modelled: no behaviour verified here depends on
them, and infinities are not representable in `ℚ`. -/
def pyFloat (s : String) : Option ℚ :=
  let l := stripChars s.data
  let sl : ℚ × List Char :=
    match l with
    | '+' :: r => (1, r)
    | '-' :: r => (-1, r)
    | r => (1, r)
  let ip := sl.2.takeWhile Char.isDigit
  let l1 := sl.2.dropWhile Char.isDigit
  match l1 with
  | '.' :: r2 =>
    let fp := r2.takeWhile Char.isDigit
    let l2 := r2.dropWhile Char.isDigit
    if ip.isEmpty && fp.isEmpty then none
    else
      match parseExp l2 with
      | some e =>
        some (sl.1 * ((digitsToNat ip : ℚ) + (digitsToNat fp : ℚ) / (10 : ℚ) ^ fp.length)
          * (10 : ℚ) ^ e)
      | none => none
  | _ =>
    if ip.isEmpty then none
    else
      match parseExp l1 with
      | some e => some (sl.1 * (digitsToNat ip : ℚ) * (10 : ℚ) ^ e)
      | none => none

/-- Error message raised on an empty stripped response (line 70). -/
def emptyMsg : String := "Empty response from model"

/-- Error message raised on a negative parsed value (line 80). -/
def negMsg : String := "Intake cannot be negative"

/-- Error message of the (unreachable) zero-samples check (line 87). -/
def noValidMsg : String := "No valid intake values collected"

/-- Message of the `ValueError` raised by `float()` on unparsable text
(CPython additionally wraps the offending text in quotes; the exact
quoting is immaterial here). -/
def unparsableMsg (t : String) : String :=
  "could not convert string to float: " ++ t

/-- The numeric extraction of lines 71-77: the value of the first
`\d+\.\d+` match when one exists (`float(match.group())`, which never
raises since the matched text is always a valid float literal), otherwise
`float()` of the whole stripped text; `none` when the fallback raises
`ValueError`. -/
def extractValue (intake : String) : Option ℚ :=
  match firstDecimal intake with
  | some m => some (decValue m)
  | none => pyFloat intake

/-- Per-call handling of one raw upstream response (lines 66-84 of
`app.py`): strip surrounding whitespace; fail on empty; extract the first
`\d+\.\d+` match if any, otherwise parse the whole stripped text with
`float()`; fail on a parse error or a negative value. -/
def parseIntake (raw : String) : Except String ℚ :=
  if pyStrip raw = "" then .error emptyMsg
  else
    match extractValue (pyStrip raw) with
    | none => .error (unparsableMsg (pyStrip raw))
    | some v => if v < 0 then .error negMsg else .ok v

/-- Text of the prompt f-string before `{context_text}` (lines 34-36). -/
def promptHeader : String :=
  "\n        First, read and understand the following context document to ground your analysis:\n        "

/-- Text of the prompt f-string between `{context_text}` and
`{historical_data}` (lines 36-47): the domain-framing instructions and the
`Historical Data:` label. -/
def promptFraming : String :=
  "\n\n        Now, you are an expert in evaluating Goodiebox welcome boxes for their ability to attract new members. \n        Below is historical data showing, for each past box, its features, the achieved CAC (Customer Acquisition Cost in euros), \n        and the corresponding daily intake (new members per day). Use this data to predict the daily intake for the future \n        welcome box, given its features and a CAC of 17.5 EUR. Consider factors such as the number of products, total retail \n        value, number of unique categories, number of full-size products, number of premium products (> €20), total weight, \n        average product rating, average brand rating, average category rating, and niche products, as well as the insights from \n        the context document (e.g., niche vs. non-niche products, free gifts, box weight).\n\n        Historical Data:\n        "

/-- Text of the prompt f-string between `{historical_data}` and
`{future_box_info}` (lines 47-50). -/
def promptFutureLabel : String :=
  "\n\n        Future Box:\n        "

/-- Text of the prompt f-string after `{future_box_info}` (lines 50-53):
the output-format instruction and the 0.0 fallback instruction. -/
def promptTail : String :=
  "\n\n        Return **only** the numerical value of the predicted daily intake as a float (e.g., 150.0). Do not include any explanations, text, or units. If you cannot provide a numerical value, return 0.0.\n        "

/-- The prompt f-string of `predict_box_intake` (lines 34-53): the three
inputs are embedded verbatim, in the order context, historical data,
future box info, between the fixed text segments. -/
def buildPrompt (historical_data future_box_info context_text : String) : String :=
  promptHeader ++ context_text ++ promptFraming ++ historical_data
    ++ promptFutureLabel ++ future_box_info ++ promptTail

/-- The `for i in range(5)` collection loop (lines 54-84) over an explicit
index list: parse each response in order, abort at the first failure with
that failure's error (no retry, no skip), otherwise collect the parsed
values in order. -/
def collectIntakes (p : ℕ → Except String ℚ) : List ℕ → Except String (List ℚ)
  | [] => .ok []
  | i :: is =>
    match p i with
    | .error e => .error e
    | .ok v =>
      match collectIntakes p is with
      | .error e => .error e
      | .ok vs => .ok (v :: vs)

/-- `predict_box_intake(historical_data, future_box_info, context_text)`
(lines 31-93).  `llm prompt i` is the response text of the i-th upstream
call made with the given prompt.  The final `try/except` (lines 91-93)
re-raises unchanged, so it does not alter the result. -/
def predict_box_intake (historical_data future_box_info context_text : String)
    (llm : String → ℕ → String) : Except String ℚ :=
  match collectIntakes
      (fun i => parseIntake (llm (buildPrompt historical_data future_box_info context_text) i))
      (List.range 5) with
  | .error e => .error e
  | .ok intakes =>
    if intakes.isEmpty then .error noValidMsg
    else .ok (intakes.sum / (intakes.length : ℚ))

/-- A JSON value, as produced by `jsonify`. -/
inductive JsonVal where
  | str (s : String)
  | num (q : ℚ)
  | obj (fields : List (String × JsonVal))

/-- Field lookup in a JSON object (`none` on non-objects). -/
def jsonLookup (j : JsonVal) (k : String) : Option JsonVal :=
  match j with
  | .obj fs => fs.lookup k
  | _ => none

/-- An HTTP response: status code and JSON body. -/
structure HttpResponse where
  status : ℕ
  body : JsonVal

/-- The JSON body of a `POST /predict_box_score` request with field
presence explicit.  Fields are opaque text (the spec performs no schema
validation beyond presence checks). -/
structure PredictBody where
  future_box_info : Option String
  context : Option String
  historical_data : Option String

/-- Default used when `historical_data` is absent (line 102). -/
def defaultHistorical : String := "No historical data provided"

/-- Body of the 400 response for a missing required field (line 101). -/
def missingMsg : String := "Missing future_box_info or context"

/-- The `POST /predict_box_score` handler `box_score` (lines 95-111).
`data = none` models `request.get_json()` returning no JSON body; a body
whose required keys are absent fails the same presence check (an empty
dict additionally fails the `not data` test, with the same outcome). -/
def box_score (data : Option PredictBody) (llm : String → ℕ → String) : HttpResponse :=
  match data with
  | none => ⟨400, .obj [("error", .str missingMsg)]⟩
  | some d =>
    match d.future_box_info, d.context with
    | some future_box_info, some context_text =>
      match predict_box_intake (d.historical_data.getD defaultHistorical)
          future_box_info context_text llm with
      | .ok intake => ⟨200, .obj [("predicted_intake", .num intake)]⟩
      | .error e => ⟨500, .obj [("error", .str e)]⟩
    | _, _ => ⟨400, .obj [("error", .str missingMsg)]⟩

/-- The `GET /health` handler (lines 113-116). -/
def health_check : HttpResponse :=
  ⟨200, .obj [("status", .str "healthy")]⟩

/-- The text contains a substring matching `\d+\.\d+`: some contiguous
decomposition `digits ++ '.' ++ digits` with both digit runs nonempty. -/
def ContainsDec (l : List Char) : Prop :=
  ∃ a d1 d2 b, l = a ++ (d1 ++ '.' :: d2) ++ b ∧ d1 ≠ [] ∧ d2 ≠ [] ∧
    ∀ c ∈ d1 ++ d2, c.isDigit = true

/-- Reduced form of `ContainsDec`: a digit, a dot and a digit occur
contiguously (taking the last digit of the first run and the first digit of
the second run). -/
def ContainsDec1 (l : List Char) : Prop :=
  ∃ a c1 c2 b, l = a ++ c1 :: '.' :: c2 :: b ∧ c1.isDigit = true ∧ c2.isDigit = true

/-- Boolean substring test on character lists (`t` occurs contiguously in
the second argument), used to state and decide containment facts about the
fixed prompt text. -/
def hasSub (t : List Char) : List Char → Bool
  | [] => t.isEmpty
  | c :: s => t.isPrefixOf (c :: s) || hasSub t s

theorem exists_append_of_hasSub (t : List Char) :
    ∀ s, hasSub t s = true → ∃ x y, s = x ++ t ++ y := by
  intro s
  induction s with
  | nil =>
    intro h
    simp [hasSub, List.isEmpty_iff] at h
    exact ⟨[], [], by simp [h]⟩
  | cons c s ih =>
    intro h
    rcases (by simpa [hasSub] using h : t <+: c :: s ∨ hasSub t s = true) with h | h
    · rcases h with ⟨r, hr⟩
      exact ⟨[], r, by simpa using hr.symm⟩
    · rcases ih h with ⟨x, y, hxy⟩
      exact ⟨c :: x, y, by simp [hxy]⟩

theorem decValue_nonneg (m : List Char × List Char) : 0 ≤ decValue m := by
  unfold decValue
  positivity

theorem parseIntake_ok_intro {s : String} {v : ℚ} (hne : pyStrip s ≠ "")
    (hev : extractValue (pyStrip s) = some v) (h0 : ¬v < 0) :
    parseIntake s = .ok v := by
  simp [parseIntake, hne, hev, h0]

theorem parseIntake_ok_inv {s : String} {v : ℚ} (h : parseIntake s = .ok v) :
    pyStrip s ≠ "" ∧ extractValue (pyStrip s) = some v ∧ 0 ≤ v := by
  unfold parseIntake at h
  split at h
  · exact absurd h (by simp)
  · rename_i hne
    refine ⟨hne, ?_⟩
    split at h
    · exact absurd h (by simp)
    · rename_i w hw
      split at h
      · exact absurd h (by simp)
      · rename_i hneg
        obtain rfl : w = v := by simpa using h
        exact ⟨hw, not_lt.mp hneg⟩

theorem parseIntake_error_inv {s : String} {e : String}
    (h : parseIntake s = .error e) :
    (e = emptyMsg ∧ pyStrip s = "") ∨
    (e = unparsableMsg (pyStrip s) ∧ pyStrip s ≠ "" ∧
      extractValue (pyStrip s) = none) ∨
    (e = negMsg ∧ pyStrip s ≠ "" ∧
      ∃ v, extractValue (pyStrip s) = some v ∧ v < 0) := by
  unfold parseIntake at h
  split at h
  · rename_i he
    exact Or.inl ⟨by simpa using h.symm, he⟩
  · rename_i hne
    split at h
    · rename_i hev
      exact Or.inr (Or.inl ⟨by simpa using h.symm, hne, hev⟩)
    · rename_i w hw
      split at h
      · rename_i hneg
        exact Or.inr (Or.inr ⟨by simpa using h.symm, hne, w, hw, hneg⟩)
      · exact absurd h (by simp)

theorem unparsableMsg_ne_negMsg (t : String) : unparsableMsg t ≠ negMsg := by
  intro h
  have hl := congrArg String.length h
  rw [unparsableMsg, String.length_append] at hl
  have h1 : ("could not convert string to float: ").length = 35 := by decide
  have h2 : negMsg.length = 25 := by decide
  omega

theorem emptyMsg_ne_noValidMsg : emptyMsg ≠ noValidMsg := by decide

theorem negMsg_ne_noValidMsg : negMsg ≠ noValidMsg := by decide

theorem unparsableMsg_ne_noValidMsg (t : String) :
    unparsableMsg t ≠ noValidMsg := by
  intro h
  have hl := congrArg String.length h
  rw [unparsableMsg, String.length_append] at hl
  have h1 : ("could not convert string to float: ").length = 35 := by decide
  have h2 : noValidMsg.length = 32 := by decide
  omega

theorem parseIntake_ne_noValid (s : String) :
    parseIntake s ≠ .error noValidMsg := by
  intro h
  rcases parseIntake_error_inv h with ⟨he, _⟩ | ⟨he, _⟩ | ⟨he, _⟩
  · exact emptyMsg_ne_noValidMsg he.symm
  · exact unparsableMsg_ne_noValidMsg _ he.symm
  · exact negMsg_ne_noValidMsg he.symm

/-- C10: `GET /health` always returns a success-status response with body
`{"status": "healthy"}`, independent of any other input or state (the
handler is a constant: it reads no request data and no service state). -/
theorem health_check_healthy :
    health_check = ⟨200, .obj [("status", .str "healthy")]⟩ ∧
    jsonLookup health_check.body "status" = some (.str "healthy") := by
  exact ⟨rfl, rfl⟩

/-- C5: a `POST /predict_box_score` request with no JSON body, or whose
body lacks `future_box_info` or lacks `context`, yields status 400 with
body exactly `{"error": "Missing future_box_info or context"}`, for every
upstream oracle (so the aggregation logic is never consulted) and
regardless of the other fields' values. -/
theorem box_score_missing_fields (d : Option PredictBody)
    (llm : String → ℕ → String)
    (h : d = none ∨ ∃ b, d = some b ∧
      (b.future_box_info = none ∨ b.context = none)) :
    box_score d llm = ⟨400, .obj [("error", .str missingMsg)]⟩ ∧
    jsonLookup (box_score d llm).body "predicted_intake" = none := by
  have hbox : box_score d llm = ⟨400, .obj [("error", .str missingMsg)]⟩ := by
    rcases h with rfl | ⟨b, rfl, hb⟩
    · rfl
    · rcases hb with hb | hb
      · simp [box_score, hb]
      · cases hf : b.future_box_info <;> simp [box_score, hb, hf]
  refine ⟨hbox, ?_⟩
  rw [hbox]
  rfl

theorem box_score_missing_fields_witness :
    box_score none (fun _ _ => "1.0") =
      ⟨400, .obj [("error", .str missingMsg)]⟩ := by
  exact (box_score_missing_fields none (fun _ _ => "1.0") (Or.inl rfl)).1

theorem collectIntakes_length {p : ℕ → Except String ℚ} :
    ∀ (idxs : List ℕ) (vs : List ℚ), collectIntakes p idxs = .ok vs →
      vs.length = idxs.length := by
  intro idxs
  induction idxs with
  | nil =>
    intro vs h
    obtain rfl : ([] : List ℚ) = vs := by simpa [collectIntakes] using h
    rfl
  | cons i is ih =>
    intro vs h
    simp only [collectIntakes] at h
    cases hp : p i with
    | error e => simp [hp] at h
    | ok v =>
      rw [hp] at h
      cases hc : collectIntakes p is with
      | error e => simp [hc] at h
      | ok ws =>
        rw [hc] at h
        obtain rfl : v :: ws = vs := by simpa using h
        simp [ih ws hc]

theorem collectIntakes_ok_of_all {p : ℕ → Except String ℚ} {v : ℕ → ℚ} :
    ∀ idxs : List ℕ, (∀ i ∈ idxs, p i = .ok (v i)) →
      collectIntakes p idxs = .ok (idxs.map v) := by
  intro idxs
  induction idxs with
  | nil => intro _; rfl
  | cons i is ih =>
    intro hall
    have hi := hall i (by simp)
    have hrest := ih (fun j hj => hall j (by simp [hj]))
    simp [collectIntakes, hi, hrest]

theorem collectIntakes_ok_forall {p : ℕ → Except String ℚ} :
    ∀ (idxs : List ℕ) (vs : List ℚ), collectIntakes p idxs = .ok vs →
      ∃ v : ℕ → ℚ, vs = idxs.map v ∧ ∀ i ∈ idxs, p i = .ok (v i) := by
  intro idxs
  induction idxs with
  | nil =>
    intro vs h
    obtain rfl : ([] : List ℚ) = vs := by simpa [collectIntakes] using h
    exact ⟨fun _ => 0, by simp, by simp⟩
  | cons i is ih =>
    intro vs h
    simp only [collectIntakes] at h
    cases hp : p i with
    | error e => simp [hp] at h
    | ok w =>
      rw [hp] at h
      cases hc : collectIntakes p is with
      | error e => simp [hc] at h
      | ok ws =>
        rw [hc] at h
        obtain rfl : w :: ws = vs := by simpa using h
        rcases ih ws hc with ⟨v, rfl, hv⟩
        refine ⟨Function.update v i w, ?_, ?_⟩
        · have hcong : is.map (Function.update v i w) = is.map v := by
            apply List.map_congr_left
            intro j hj
            rcases eq_or_ne j i with rfl | hji
            · have h1 := hv _ hj
              rw [hp] at h1
              have hw : w = v j := by simpa using h1
              simp [hw]
            · simp [Function.update_noteq hji]
          simp [hcong]
        · intro j hj
          rcases eq_or_ne j i with rfl | hji
          · simp [hp]
          · rw [Function.update_noteq hji]
            refine hv j ?_
            rcases List.mem_cons.mp hj with h | h
            · exact absurd h hji
            · exact h

theorem collectIntakes_first_error {p : ℕ → Except String ℚ} {e : String} :
    ∀ (l1 : List ℕ) (i : ℕ) (l2 : List ℕ),
      (∀ j ∈ l1, ∃ w, p j = .ok w) → p i = .error e →
      collectIntakes p (l1 ++ i :: l2) = .error e := by
  intro l1
  induction l1 with
  | nil =>
    intro i l2 _ hi
    simp [collectIntakes, hi]
  | cons j l1 ih =>
    intro i l2 hall hi
    rcases hall j (by simp) with ⟨w, hw⟩
    have hrest := ih i l2 (fun k hk => hall k (by simp [hk])) hi
    simp [collectIntakes, hw, hrest]

theorem collectIntakes_error_src {p : ℕ → Except String ℚ} :
    ∀ (idxs : List ℕ) (e : String), collectIntakes p idxs = .error e →
      ∃ i ∈ idxs, p i = .error e := by
  intro idxs
  induction idxs with
  | nil =>
    intro e h
    simp [collectIntakes] at h
  | cons i is ih =>
    intro e h
    simp only [collectIntakes] at h
    cases hp : p i with
    | error e2 =>
      rw [hp] at h
      obtain rfl : e2 = e := by simpa using h
      exact ⟨i, by simp, hp⟩
    | ok w =>
      rw [hp] at h
      cases hc : collectIntakes p is with
      | error e2 =>
        rw [hc] at h
        obtain rfl : e2 = e := by simpa using h
        rcases ih _ hc with ⟨k, hk, hpk⟩
        exact ⟨k, by simp [hk], hpk⟩
      | ok ws => simp [hc] at h

/-- C7: a valid request omitting `historical_data` behaves exactly as one
supplying the default placeholder string: the handler output coincides for
every upstream oracle, and the rendered prompt is the one with the
placeholder embedded in the historical-data slot. -/
theorem box_score_default_historical :
    (∀ (b : PredictBody) (llm : String → ℕ → String),
      b.historical_data = none →
      box_score (some b) llm =
        box_score (some { b with historical_data := some defaultHistorical }) llm) ∧
    (∀ f c : String,
      buildPrompt ((none : Option String).getD defaultHistorical) f c =
        buildPrompt defaultHistorical f c) := by
  constructor
  · intro b llm hb
    cases hf : b.future_box_info <;> cases hc : b.context <;>
      simp [box_score, hf, hc, hb]
  · intro f c
    rfl

theorem box_score_default_historical_witness :
    box_score (some ⟨some "box", some "ctx", none⟩) (fun _ _ => "1.0") =
      box_score (some ⟨some "box", some "ctx", some defaultHistorical⟩)
        (fun _ _ => "1.0") := by
  exact box_score_default_historical.1 ⟨some "box", some "ctx", none⟩
    (fun _ _ => "1.0") rfl

set_option maxRecDepth 80000 in
/-- C8: the prompt renderer is deterministic in
(context, historical_data, future_box_info), and its single output string
embeds the three inputs verbatim between fixed segments, in the order
context document, framing instructions, historical data, future box
description, output-format instruction; the fixed segments contain the
domain framing (welcome-box attraction, fixed 17.5 EUR acquisition cost),
the single-numeric-value demand and the fallback instruction to return
0.0. -/
theorem buildPrompt_spec :
    (∀ c h f c2 h2 f2 : String, c = c2 → h = h2 → f = f2 →
      buildPrompt h f c = buildPrompt h2 f2 c2) ∧
    (∀ c h f : String, buildPrompt h f c =
      promptHeader ++ c ++ promptFraming ++ h ++ promptFutureLabel ++ f
        ++ promptTail) ∧
    (∃ x y, promptFraming.data = x ++
      ("you are an expert in evaluating Goodiebox welcome boxes for their ability to attract new members").data ++ y) ∧
    (∃ x y, promptFraming.data = x ++ ("a CAC of 17.5 EUR").data ++ y) ∧
    (∃ x y, promptFraming.data = x ++ ("Historical Data:").data ++ y) ∧
    (∃ x y, promptFutureLabel.data = x ++ ("Future Box:").data ++ y) ∧
    (∃ x y, promptTail.data = x ++
      ("Return **only** the numerical value of the predicted daily intake as a float (e.g., 150.0). Do not include any explanations, text, or units.").data ++ y) ∧
    (∃ x y, promptTail.data = x ++
      ("If you cannot provide a numerical value, return 0.0.").data ++ y) := by
  refine ⟨?_, ?_, ?_, ?_, ?_, ?_, ?_, ?_⟩
  · rintro c h f _ _ _ rfl rfl rfl
    rfl
  · intro c h f
    rfl
  all_goals exact exists_append_of_hasSub _ _ (by decide)

theorem buildPrompt_spec_witness :
    buildPrompt "H" "F" "C" = buildPrompt "H" "F" "C" := by
  exact buildPrompt_spec.1 "C" "H" "F" "C" "H" "F" rfl rfl rfl

/-- C9: the zero-samples error is unreachable: a successful pass of the
5-iteration loop collects exactly 5 samples (one per iteration), and
`predict_box_intake` can never fail with "No valid intake values
collected" — any failing iteration propagates its own error instead. -/
theorem zero_samples_unreachable :
    (∀ (p : ℕ → Except String ℚ) (vs : List ℚ),
      collectIntakes p (List.range 5) = .ok vs → vs.length = 5) ∧
    (∀ (h f c : String) (llm : String → ℕ → String),
      predict_box_intake h f c llm ≠ .error noValidMsg) := by
  constructor
  · intro p vs h
    simpa using collectIntakes_length (List.range 5) vs h
  · intro h f c llm hcontra
    unfold predict_box_intake at hcontra
    cases hc : collectIntakes
        (fun i => parseIntake (llm (buildPrompt h f c) i)) (List.range 5) with
    | error e =>
      rw [hc] at hcontra
      obtain rfl : e = noValidMsg := by simpa using hcontra
      rcases collectIntakes_error_src _ _ hc with ⟨i, _, hpi⟩
      exact parseIntake_ne_noValid _ hpi
    | ok vs =>
      rw [hc] at hcontra
      have hlen : vs.length = 5 := by
        simpa using collectIntakes_length _ _ hc
      have hne : vs ≠ [] := by
        intro hnil
        rw [hnil] at hlen
        simp at hlen
      simp [hne] at hcontra

theorem zero_samples_unreachable_witness :
    ([(1 : ℚ), 1, 1, 1, 1] : List ℚ).length = 5 := by
  exact zero_samples_unreachable.1 (fun _ => .ok 1) [1, 1, 1, 1, 1]
    (by simp [collectIntakes, List.range_succ])

theorem parseIntake_ok_nonneg {s : String} {v : ℚ}
    (h : parseIntake s = .ok v) : 0 ≤ v :=
  (parseIntake_ok_inv h).2.2

theorem predict_ok_nonneg {h f c : String} {llm : String → ℕ → String}
    {q : ℚ} (hq : predict_box_intake h f c llm = .ok q) : 0 ≤ q := by
  unfold predict_box_intake at hq
  cases hc : collectIntakes
      (fun i => parseIntake (llm (buildPrompt h f c) i)) (List.range 5) with
  | error e => rw [hc] at hq; exact absurd hq (by simp)
  | ok vs =>
    rw [hc] at hq
    rcases collectIntakes_ok_forall _ _ hc with ⟨v, rfl, hv⟩
    have hnn : ∀ x ∈ (List.range 5).map v, 0 ≤ x := by
      intro x hx
      rcases List.mem_map.mp hx with ⟨i, hi, rfl⟩
      exact parseIntake_ok_nonneg (hv i hi)
    have hq2 : (List.map v (List.range 5)).sum / (5 : ℚ) = q := by
      simpa using hq
    rw [← hq2]
    exact div_nonneg (List.sum_nonneg hnn) (by norm_num)

/-- C6: every sample appended by the collection loop is non-negative, and
consequently every successful aggregation result and every
`predicted_intake` value returned by the endpoint is a single non-negative
rational. -/
theorem intake_nonneg :
    (∀ (s : String) (v : ℚ), parseIntake s = .ok v → 0 ≤ v) ∧
    (∀ (h f c : String) (llm : String → ℕ → String) (q : ℚ),
      predict_box_intake h f c llm = .ok q → 0 ≤ q) ∧
    (∀ (d : Option PredictBody) (llm : String → ℕ → String) (q : ℚ),
      jsonLookup (box_score d llm).body "predicted_intake" = some (.num q) →
      0 ≤ q) := by
  refine ⟨fun s v h => parseIntake_ok_nonneg h, fun h f c llm q hq => predict_ok_nonneg hq, ?_⟩
  intro d llm q hq
  match d with
  | none => simp [box_score, jsonLookup, List.lookup] at hq
  | some b =>
    cases hf : b.future_box_info with
    | none => simp [box_score, jsonLookup, hf, List.lookup] at hq
    | some f =>
      cases hc : b.context with
      | none => simp [box_score, jsonLookup, hf, hc, List.lookup] at hq
      | some c =>
        cases hp : predict_box_intake (b.historical_data.getD defaultHistorical)
            f c llm with
        | error e =>
          simp [box_score, jsonLookup, hf, hc, hp, List.lookup] at hq
        | ok intake =>
          have : jsonLookup (box_score (some b) llm).body "predicted_intake" =
              some (.num intake) := by
            simp [box_score, jsonLookup, hf, hc, hp, List.lookup]
          rw [this] at hq
          obtain rfl : intake = q := by simpa using hq
          exact predict_ok_nonneg hp

theorem intake_nonneg_witness : (0 : ℚ) ≤ 2 := by
  exact intake_nonneg.1 "2.0" 2
    (by simp +decide [parseIntake, pyStrip, stripChars, extractValue,
      firstDecimal, scanAux, decValue, digitsToNat, pyIsSpace])

theorem box_score_valid_inv {b : PredictBody} {llm : String → ℕ → String}
    {st : ℕ} {q : ℚ}
    (h : box_score (some b) llm = ⟨st, .obj [("predicted_intake", .num q)]⟩) :
    ∃ f c, b.future_box_info = some f ∧ b.context = some c ∧
      predict_box_intake (b.historical_data.getD defaultHistorical) f c llm
        = .ok q ∧ st = 200 := by
  cases hf : b.future_box_info with
  | none => simp [box_score, hf] at h
  | some f =>
    cases hc : b.context with
    | none => simp [box_score, hf, hc] at h
    | some c =>
      cases hp : predict_box_intake (b.historical_data.getD defaultHistorical)
          f c llm with
      | error e => simp [box_score, hf, hc, hp] at h
      | ok intake =>
        have h2 : (⟨200, .obj [("predicted_intake", .num intake)]⟩ : HttpResponse)
            = ⟨st, .obj [("predicted_intake", .num q)]⟩ := by
          rw [← h]
          simp [box_score, hf, hc, hp]
        obtain ⟨hst, hval⟩ : (200 : ℕ) = st ∧ intake = q := by
          simpa using h2
        exact ⟨f, c, rfl, rfl, hval ▸ hp, hst.symm⟩

theorem predict_ok_of_all {h f c : String} {llm : String → ℕ → String}
    {v : ℕ → ℚ}
    (hall : ∀ i, i < 5 → parseIntake (llm (buildPrompt h f c) i) = .ok (v i)) :
    predict_box_intake h f c llm = .ok ((v 0 + v 1 + v 2 + v 3 + v 4) / 5) := by
  have hcol : collectIntakes (fun i => parseIntake (llm (buildPrompt h f c) i))
      (List.range 5) = .ok ((List.range 5).map v) :=
    collectIntakes_ok_of_all _ (fun i hi => hall i (List.mem_range.mp hi))
  have h5 : List.range 5 = [0, 1, 2, 3, 4] := rfl
  have hsum : ((List.range 5).map v).sum = v 0 + v 1 + v 2 + v 3 + v 4 := by
    rw [h5]
    simp [add_assoc]
  unfold predict_box_intake
  rw [hcol]
  have hne : ((List.range 5).map v).isEmpty = false := by
    rw [h5]
    rfl
  have hlen : (((List.range 5).map v).length : ℚ) = 5 := by
    rw [h5]
    simp
  simp only [hne, Bool.false_eq_true, if_false, hlen, hsum]

/-- C1: for a valid request whose 5 upstream responses parse to values
v 0 .. v 4, the endpoint returns status 200 with `predicted_intake` equal
to the arithmetic mean (v 0 + v 1 + v 2 + v 3 + v 4) / 5; conversely, a
returned `predicted_intake` arises only when all 5 calls parse
successfully, and it equals the mean of exactly those 5 values. -/
theorem box_score_mean_of_five :
    (∀ (b : PredictBody) (f c : String) (llm : String → ℕ → String) (v : ℕ → ℚ),
      b.future_box_info = some f → b.context = some c →
      (∀ i, i < 5 → parseIntake
        (llm (buildPrompt (b.historical_data.getD defaultHistorical) f c) i)
          = .ok (v i)) →
      box_score (some b) llm =
        ⟨200, .obj [("predicted_intake",
          .num ((v 0 + v 1 + v 2 + v 3 + v 4) / 5))]⟩) ∧
    (∀ (b : PredictBody) (llm : String → ℕ → String) (q : ℚ),
      box_score (some b) llm = ⟨200, .obj [("predicted_intake", .num q)]⟩ →
      ∃ f c, b.future_box_info = some f ∧ b.context = some c ∧
        ∃ v : ℕ → ℚ,
          (∀ i, i < 5 → parseIntake
            (llm (buildPrompt (b.historical_data.getD defaultHistorical) f c) i)
              = .ok (v i)) ∧
          q = (v 0 + v 1 + v 2 + v 3 + v 4) / 5) := by
  constructor
  · intro b f c llm v hf hc hall
    have hpred := predict_ok_of_all hall
    simp [box_score, hf, hc, hpred]
  · intro b llm q hq
    rcases box_score_valid_inv hq with ⟨f, c, hf, hc, hpred, _⟩
    refine ⟨f, c, hf, hc, ?_⟩
    unfold predict_box_intake at hpred
    cases hcol : collectIntakes
        (fun i => parseIntake
          (llm (buildPrompt (b.historical_data.getD defaultHistorical) f c) i))
        (List.range 5) with
    | error e => rw [hcol] at hpred; exact absurd hpred (by simp)
    | ok vs =>
      rw [hcol] at hpred
      rcases collectIntakes_ok_forall _ _ hcol with ⟨v, rfl, hv⟩
      refine ⟨v, fun i hi => hv i (List.mem_range.mpr hi), ?_⟩
      have h5 : List.range 5 = [0, 1, 2, 3, 4] := rfl
      have hsum : ((List.range 5).map v).sum = v 0 + v 1 + v 2 + v 3 + v 4 := by
        rw [h5]
        simp [add_assoc]
      have hq2 : (List.map v (List.range 5)).sum / (5 : ℚ) = q := by
        simpa using hpred
      rw [← hq2, hsum]

theorem box_score_mean_of_five_witness :
    box_score (some ⟨some "box", some "ctx", none⟩) (fun _ _ => "2.0") =
      ⟨200, .obj [("predicted_intake",
        .num ((2 + 2 + 2 + 2 + 2 : ℚ) / 5))]⟩ := by
  exact box_score_mean_of_five.1 ⟨some "box", some "ctx", none⟩ "box" "ctx"
    (fun _ _ => "2.0") (fun _ => 2) rfl rfl
    (fun i _ => by
      simp +decide [parseIntake, pyStrip, stripChars, extractValue,
        firstDecimal, scanAux, decValue, digitsToNat, pyIsSpace])

theorem range_five_decomp {i : ℕ} (hi : i < 5) :
    List.range 5 = List.range i ++ i :: (List.range 5).drop (i + 1) := by
  conv_lhs => rw [← List.take_append_drop i (List.range 5)]
  congr 1
  · rw [List.take_range]
    congr 1
    omega
  · rw [List.drop_eq_getElem_cons (by simpa using hi)]
    simp

theorem predict_first_error {h f c : String} {llm : String → ℕ → String}
    {i : ℕ} {e : String} (hi : i < 5)
    (herr : parseIntake (llm (buildPrompt h f c) i) = .error e)
    (hok : ∀ j, j < i → ∃ w, parseIntake (llm (buildPrompt h f c) j) = .ok w) :
    predict_box_intake h f c llm = .error e := by
  have hcol : collectIntakes (fun j => parseIntake (llm (buildPrompt h f c) j))
      (List.range 5) = .error e := by
    rw [range_five_decomp hi]
    exact collectIntakes_first_error (List.range i) i _
      (fun j hj => hok j (List.mem_range.mp hj)) herr
  unfold predict_box_intake
  rw [hcol]

/-- C2: if one of the 5 upstream responses is empty, unparsable, or
negative, the aggregation aborts at the first failing sample with that
sample's error (earlier samples all parsed, later ones are never
consulted; no retry, no skip) and the endpoint returns status 500 with
body `{"error": e}` and no `predicted_intake` field; in general any
in-range parse failure forces such a 500 error response. -/
theorem box_score_fail_fast :
    (∀ (b : PredictBody) (f c : String) (llm : String → ℕ → String)
        (i : ℕ) (e : String),
      b.future_box_info = some f → b.context = some c →
      i < 5 →
      parseIntake (llm (buildPrompt (b.historical_data.getD defaultHistorical)
        f c) i) = .error e →
      (∀ j, j < i → ∃ w, parseIntake
        (llm (buildPrompt (b.historical_data.getD defaultHistorical) f c) j)
          = .ok w) →
      box_score (some b) llm = ⟨500, .obj [("error", .str e)]⟩ ∧
      jsonLookup (box_score (some b) llm).body "predicted_intake" = none) ∧
    (∀ (b : PredictBody) (f c : String) (llm : String → ℕ → String),
      b.future_box_info = some f → b.context = some c →
      (∃ i, i < 5 ∧ ∃ e, parseIntake
        (llm (buildPrompt (b.historical_data.getD defaultHistorical) f c) i)
          = .error e) →
      ∃ msg, box_score (some b) llm = ⟨500, .obj [("error", .str msg)]⟩ ∧
        jsonLookup (box_score (some b) llm).body "predicted_intake" = none) := by
  constructor
  · intro b f c llm i e hf hc hi herr hok
    have hpred := predict_first_error hi herr hok
    have hbox : box_score (some b) llm = ⟨500, .obj [("error", .str e)]⟩ := by
      simp [box_score, hf, hc, hpred]
    refine ⟨hbox, ?_⟩
    rw [hbox]
    rfl
  · intro b f c llm hf hc hex
    rcases hex with ⟨i, hi, e, herr⟩
    cases hcol : collectIntakes
        (fun j => parseIntake
          (llm (buildPrompt (b.historical_data.getD defaultHistorical) f c) j))
        (List.range 5) with
    | ok vs =>
      rcases collectIntakes_ok_forall _ _ hcol with ⟨v, _, hv⟩
      have := hv i (List.mem_range.mpr hi)
      rw [herr] at this
      exact absurd this (by simp)
    | error e2 =>
      have hpred : predict_box_intake (b.historical_data.getD defaultHistorical)
          f c llm = .error e2 := by
        unfold predict_box_intake
        rw [hcol]
      have hbox : box_score (some b) llm = ⟨500, .obj [("error", .str e2)]⟩ := by
        simp [box_score, hf, hc, hpred]
      refine ⟨e2, hbox, ?_⟩
      rw [hbox]
      rfl

theorem box_score_fail_fast_witness :
    box_score (some ⟨some "box", some "ctx", none⟩) (fun _ _ => "oops") =
      ⟨500, .obj [("error", .str (unparsableMsg "oops"))]⟩ := by
  refine (box_score_fail_fast.1 ⟨some "box", some "ctx", none⟩ "box" "ctx"
    (fun _ _ => "oops") 0 (unparsableMsg "oops") rfl rfl (by decide) ?_
    (fun j hj => absurd hj (by simp))).1
  simp +decide [parseIntake, pyStrip, stripChars, extractValue,
    firstDecimal, scanAux, pyFloat, parseExp, pyIsSpace]

theorem containsDec1_of_containsDec {l : List Char} (h : ContainsDec l) :
    ContainsDec1 l := by
  rcases h with ⟨a, d1, d2, b, heq, h1, h2, hdig⟩
  rcases List.eq_nil_or_concat d1 with rfl | ⟨e, c1, rfl⟩
  · exact absurd rfl h1
  · cases d2 with
    | nil => exact absurd rfl h2
    | cons c2 d2t =>
      refine ⟨a ++ e, c1, c2, d2t ++ b, ?_, ?_, ?_⟩
      · rw [heq]
        simp
      · exact hdig c1 (by simp)
      · exact hdig c2 (by simp)

theorem scanAux_isSome_of_containsDec1 :
    ∀ l run : List Char, ContainsDec1 l → (scanAux run l).isSome = true := by
  intro l
  induction l with
  | nil =>
    intro run h
    rcases h with ⟨a, c1, c2, b, heq, _, _⟩
    exact absurd heq (by simp)
  | cons c rest ih =>
    intro run h
    rcases h with ⟨a, c1, c2, b, heq, h1, h2⟩
    cases a with
    | nil =>
      obtain ⟨rfl, rfl⟩ : c = c1 ∧ rest = '.' :: c2 :: b := by simpa using heq
      simp +decide [scanAux, h1, h2, List.takeWhile_cons]
    | cons x a2 =>
      obtain ⟨rfl, hrest⟩ : c = x ∧ rest = a2 ++ c1 :: '.' :: c2 :: b := by
        simpa using heq
      have hcd : ContainsDec1 rest := ⟨a2, c1, c2, b, hrest, h1, h2⟩
      simp only [scanAux]
      by_cases hdig : c.isDigit = true
      · rw [if_pos hdig]
        exact ih (c :: run) hcd
      · rw [if_neg hdig]
        by_cases hdot : c = '.'
        · rw [if_pos hdot]
          cases run with
          | nil =>
            cases htw : rest.takeWhile Char.isDigit with
            | nil => exact ih [] hcd
            | cons d ds => exact ih [] hcd
          | cons r rs =>
            cases htw : rest.takeWhile Char.isDigit with
            | nil => exact ih [] hcd
            | cons d ds => simp
        · rw [if_neg hdot]
          exact ih [] hcd

/-- C3: per-call parsing trims surrounding whitespace, then yields the
value of the first `\d+\.\d+` match when one exists, and otherwise parses
the entire trimmed text as a number with `float()`; in particular
"The predicted value is 123.45 new members" parses to 123.45, "87.0"
parses to 87.0, and surrounding whitespace is ignored. -/
theorem parseIntake_policy :
    (∀ (s : String) (m : List Char × List Char),
      pyStrip s ≠ "" → firstDecimal (pyStrip s) = some m →
      parseIntake s = .ok (decValue m)) ∧
    (∀ s : String,
      pyStrip s ≠ "" → firstDecimal (pyStrip s) = none →
      parseIntake s =
        (match pyFloat (pyStrip s) with
        | none => .error (unparsableMsg (pyStrip s))
        | some v => if v < 0 then .error negMsg else .ok v)) ∧
    parseIntake "The predicted value is 123.45 new members" = .ok 123.45 ∧
    parseIntake "87.0" = .ok 87 ∧
    parseIntake "  87.0\t" = .ok 87 := by
  refine ⟨?_, ?_, ?_, ?_, ?_⟩
  · intro s m hne hm
    have hev : extractValue (pyStrip s) = some (decValue m) := by
      simp [extractValue, hm]
    exact parseIntake_ok_intro hne hev (not_lt.mpr (decValue_nonneg m))
  · intro s hne hm
    simp only [parseIntake, hne, if_false, extractValue, hm]
  · simp +decide [parseIntake, pyStrip, stripChars, extractValue,
      firstDecimal, scanAux, decValue, digitsToNat, pyIsSpace]
    norm_num
  · simp +decide [parseIntake, pyStrip, stripChars, extractValue,
      firstDecimal, scanAux, decValue, digitsToNat, pyIsSpace]
  · simp +decide [parseIntake, pyStrip, stripChars, extractValue,
      firstDecimal, scanAux, decValue, digitsToNat, pyIsSpace]

theorem parseIntake_policy_witness :
    parseIntake "9.5" = .ok (decValue (['9'], ['5'])) := by
  exact parseIntake_policy.1 "9.5" (['9'], ['5']) (by decide)
    (by simp +decide [firstDecimal, pyStrip, stripChars, scanAux, pyIsSpace])

/-- C4: any response whose stripped text contains a `\d+\.\d+` substring
parses via the regex branch to the value of the first match, which is
always non-negative — even when the text carries a leading minus sign, as
in "-5.0" which parses to 5.0; the negative-value rejection fires only for
texts with no such substring whose whole trimmed text float-parses to a
negative number, as in "-5". -/
theorem regex_match_nonneg :
    (∀ s : String, ContainsDec (pyStrip s).data →
      ∃ m, firstDecimal (pyStrip s) = some m ∧
        parseIntake s = .ok (decValue m) ∧ 0 ≤ decValue m) ∧
    parseIntake "-5.0" = .ok 5 ∧
    parseIntake "-5" = .error negMsg ∧
    (∀ s : String, parseIntake s = .error negMsg →
      ¬ContainsDec (pyStrip s).data ∧
      ∃ v, pyFloat (pyStrip s) = some v ∧ v < 0) := by
  have hsome : ∀ s : String, ContainsDec (pyStrip s).data →
      ∃ m, firstDecimal (pyStrip s) = some m := by
    intro s h
    have h1 := scanAux_isSome_of_containsDec1 _ []
      (containsDec1_of_containsDec h)
    exact Option.isSome_iff_exists.mp h1
  refine ⟨?_, ?_, ?_, ?_⟩
  · intro s h
    rcases hsome s h with ⟨m, hm⟩
    have hne : pyStrip s ≠ "" := by
      intro hemp
      have h0 : firstDecimal "" = none := rfl
      rw [hemp, h0] at hm
      exact Option.noConfusion hm
    have hev : extractValue (pyStrip s) = some (decValue m) := by
      simp [extractValue, hm]
    exact ⟨m, hm,
      parseIntake_ok_intro hne hev (not_lt.mpr (decValue_nonneg m)),
      decValue_nonneg m⟩
  · simp +decide [parseIntake, pyStrip, stripChars, extractValue,
      firstDecimal, scanAux, decValue, digitsToNat, pyIsSpace]
  · simp +decide [parseIntake, pyStrip, stripChars, extractValue,
      firstDecimal, scanAux, pyFloat, parseExp, digitsToNat, pyIsSpace]
  · intro s h
    rcases parseIntake_error_inv h with ⟨he, _⟩ | ⟨he, _, _⟩ | ⟨_, _, v, hev, hneg⟩
    · exact absurd he (by decide)
    · exact absurd he.symm (unparsableMsg_ne_negMsg _)
    · have hfd : firstDecimal (pyStrip s) = none := by
        cases hfd : firstDecimal (pyStrip s) with
        | none => rfl
        | some m =>
          have hev2 : extractValue (pyStrip s) = some (decValue m) := by
            simp [extractValue, hfd]
          rw [hev2] at hev
          obtain rfl : decValue m = v := by simpa using hev
          exact absurd hneg (not_lt.mpr (decValue_nonneg m))
      constructor
      · intro hcd
        rcases hsome s hcd with ⟨m, hm⟩
        rw [hfd] at hm
        exact Option.noConfusion hm
      · refine ⟨v, ?_, hneg⟩
        have hev2 : extractValue (pyStrip s) = pyFloat (pyStrip s) := by
          simp [extractValue, hfd]
        rw [← hev2]
        exact hev

theorem regex_match_nonneg_witness :
    ∃ m, firstDecimal (pyStrip "x1.2") = some m ∧
      parseIntake "x1.2" = .ok (decValue m) ∧ 0 ≤ decValue m := by
  exact regex_match_nonneg.1 "x1.2"
    ⟨['x'], ['1'], ['2'], [], by decide, by decide, by decide, by decide⟩

end WBApp
